import Mathlib

/-!
Shallow embedding of the cs493-portfolio REST service's relationship logic
(boats and loads, denormalized two-sided references), its representation
builders, and its request validation, translated from the JavaScript route
handlers in src/routes/boats.js, src/routes/users.js and the loads routers.
-/

namespace Portfolio

/-- Entity ids, as produced by JavaScript parseInt (radix 10). -/
abbrev Id := Int

/-- An entry of a boat's `loads` array: a back-reference `{id}` as pushed by
the assign handler (boats.js line 142). -/
structure LoadRef where
  id : Id
deriving DecidableEq

/-- A load's `carrier` value `{id, name?}`: boats.js sets `{id, name}`
(line 136), the authenticated router sets `{id}` only (users.js line 219). -/
structure Carrier where
  id : Id
  name : Option String
deriving DecidableEq

/-- A stored Boat document: `{name, type, length, owner, loads}` (owner is
present only in the authenticated variant and is carried opaquely here). -/
structure Boat where
  name : String
  type : String
  length : Int
  owner : String
  loads : List LoadRef
deriving DecidableEq

/-- A stored Load document: `{volume, content, creation_date, carrier}`. -/
structure Load where
  volume : Int
  content : String
  creation_date : String
  carrier : Option Carrier
deriving DecidableEq

/-- The datastore state relevant to the relationship logic: the Boats and
Loads kinds, as key-addressed documents (association lists keyed by id). -/
structure DB where
  boats : List (Id × Boat)
  loads : List (Id × Load)
deriving DecidableEq

/-- `findEntity(kind, id)` (datastore.js): key-based lookup, first match. -/
def alookup {α : Type} : List (Id × α) → Id → Option α
  | [], _ => none
  | (k, v) :: rest, k' => if k = k' then some v else alookup rest k'

/-- `datastore.update({key, data})`: replace the document stored at a key,
leaving the store unchanged at absent keys. -/
def aupdate {α : Type} (l : List (Id × α)) (k : Id) (v : α) : List (Id × α) :=
  l.map (fun p => if p.1 = k then (k, v) else p)

/-- `datastore.delete(key)`: remove the document stored at a key. -/
def adelete {α : Type} (l : List (Id × α)) (k : Id) : List (Id × α) :=
  l.filter (fun p => p.1 != k)

/-- A sequence of `datastore.update` calls, one per updated document (as
issued by the delete-boat handler for its cleared loads). -/
def applyUpdates {α : Type} (l ups : List (Id × α)) : List (Id × α) :=
  ups.foldl (fun acc p => aupdate acc p.1 p.2) l

/-- An HTTP response as the handlers produce it: a status code and, for
error responses, the message placed in the `{"Error": msg}` body. -/
structure HttpResp where
  status : Nat
  body : Option String
deriving DecidableEq

def BAD_REQUEST : String :=
  "The request object is missing at least one of the required attributes"
def BOAT_NOT_FOUND : String := "No boat with this boat_id exists"
def BOAT_OR_LOAD_NOT_FOUND : String :=
  "The specified boat and/or load does not exist"
def LOAD_ALREADY_ASSIGNED : String := "The load is already assigned"
def LOAD_ELSEWHERE : String := "The load is not on this boat"
def NOT_OWNER : String :=
  "The associated user does not own the boat with the requested boat_id"
def LOAD_NOT_FOUND : String := "No load with this load_id exists"

/-- The WhiteSpace and LineTerminator characters JavaScript strips before
parsing a number: tab, LF, VT, FF, CR, space, NBSP, the Unicode
space-separator category, LS, PS, and the BOM. -/
def jsWhitespace (c : Char) : Bool :=
  c = '\t' || c = '\n' || c = '\u000B' || c = '\u000C' || c = '\r' ||
    c = ' ' || c = '\u00A0' || c = '\u1680' ||
    ('\u2000' ≤ c && c ≤ '\u200A') || c = '\u2028' || c = '\u2029' ||
    c = '\u202F' || c = '\u205F' || c = '\u3000' || c = '\uFEFF'

/-- JavaScript `parseInt(s, 10)`: skip leading whitespace, optional sign,
then leading decimal digits; `none` models NaN (no digits found). The
numeric value is kept exact, which agrees with the float result for every
id below 2^53. -/
def jsParseInt (s : String) : Option Id :=
  let cs := s.toList.dropWhile jsWhitespace
  let signed : Bool × List Char :=
    match cs with
    | '-' :: t => (true, t)
    | '+' :: t => (false, t)
    | t => (false, t)
  let ds := signed.2.takeWhile Char.isDigit
  if ds.isEmpty then none
  else
    let n : Nat := ds.foldl (fun acc c => acc * 10 + (c.toNat - '0'.toNat)) 0
    some (if signed.1 then -(n : Int) else (n : Int))

/-- `Array.prototype.findIndex` with predicate `load => load.id === loadId`:
the index of the first matching entry, or -1 when none matches. -/
def findIndexJs (loads : List LoadRef) (lid : Id) : Int :=
  match loads with
  | [] => -1
  | r :: rest =>
    if r.id = lid then 0
    else
      let j := findIndexJs rest lid
      if j < 0 then -1 else j + 1

/-- `Array.prototype.splice(index, 1)`: remove one element at `index`,
where a negative index counts from the end (clamped at 0) and an index at
or past the end removes nothing. -/
def spliceOne (loads : List LoadRef) (index : Int) : List LoadRef :=
  let len : Int := loads.length
  let start : Nat := if index < 0 then (max (len + index) 0).toNat else index.toNat
  loads.take start ++ loads.drop (start + 1)

/-- Removal of the first entry with a given id, the effect of
`findIndex` followed by `splice(index, 1)` whenever a matching entry
exists (related to the source combination by `spliceOne_findIndexJs`). -/
def eraseRef : List LoadRef → Id → List LoadRef
  | [], _ => []
  | r :: rest, lid => if r.id = lid then rest else r :: eraseRef rest lid

/-- `PUT /boats/:boat_id/loads/:load_id` (boats.js lines 118-164): assign a
load to a boat. Ids are parseInt results (`none` = NaN, which makes the
datastore lookup reject with code 3, caught as the 404 branch). -/
def addLoadToBoat (db : DB) (boatId loadId : Option Id) : HttpResp × DB :=
  match boatId, loadId with
  | some bid, some lid =>
    match alookup db.boats bid, alookup db.loads lid with
    | some boat, some load =>
      match load.carrier with
      | some _ => (⟨403, some LOAD_ALREADY_ASSIGNED⟩, db)
      | none =>
        let load' : Load := { load with carrier := some ⟨bid, some boat.name⟩ }
        let boat' : Boat := { boat with loads := boat.loads ++ [⟨lid⟩] }
        (⟨204, none⟩, ⟨aupdate db.boats bid boat', aupdate db.loads lid load'⟩)
    | _, _ => (⟨404, some BOAT_OR_LOAD_NOT_FOUND⟩, db)
  | _, _ => (⟨404, some BOAT_OR_LOAD_NOT_FOUND⟩, db)

/-- `PUT /boats/:boat_id/loads/:load_id` in the authenticated router
(users.js lines 196-247): like `addLoadToBoat` but the ownership check
precedes the already-assigned check, and the stored carrier omits the
boat's name (users.js line 221 comments it out). -/
def addLoadToBoatAuth (db : DB) (sub : String) (boatId loadId : Option Id) :
    HttpResp × DB :=
  match boatId, loadId with
  | some bid, some lid =>
    match alookup db.boats bid, alookup db.loads lid with
    | some boat, some load =>
      if boat.owner ≠ sub then (⟨403, some NOT_OWNER⟩, db)
      else
        match load.carrier with
        | some _ => (⟨403, some LOAD_ALREADY_ASSIGNED⟩, db)
        | none =>
          let load' : Load := { load with carrier := some ⟨bid, none⟩ }
          let boat' : Boat := { boat with loads := boat.loads ++ [⟨lid⟩] }
          (⟨204, none⟩, ⟨aupdate db.boats bid boat', aupdate db.loads lid load'⟩)
    | _, _ => (⟨404, some BOAT_OR_LOAD_NOT_FOUND⟩, db)
  | _, _ => (⟨404, some BOAT_OR_LOAD_NOT_FOUND⟩, db)

/-- `DELETE /boats/:boat_id/loads/:load_id` (boats.js lines 167-211):
unassign a load from a boat via findIndex and splice. -/
def removeLoadFromBoat (db : DB) (boatId loadId : Option Id) : HttpResp × DB :=
  match boatId, loadId with
  | some bid, some lid =>
    match alookup db.boats bid, alookup db.loads lid with
    | some boat, some load =>
      match load.carrier with
      | some c =>
        if c.id = bid then
          let load' : Load := { load with carrier := none }
          let boat' : Boat :=
            { boat with loads := spliceOne boat.loads (findIndexJs boat.loads lid) }
          (⟨204, none⟩, ⟨aupdate db.boats bid boat', aupdate db.loads lid load'⟩)
        else (⟨403, some LOAD_ELSEWHERE⟩, db)
      | none => (⟨403, some LOAD_ELSEWHERE⟩, db)
    | _, _ => (⟨404, some BOAT_OR_LOAD_NOT_FOUND⟩, db)
  | _, _ => (⟨404, some BOAT_OR_LOAD_NOT_FOUND⟩, db)

/-- `DELETE /boats/:boat_id` (boats.js lines 214-261): fetch the loads
referenced by `boat.loads` (when nonempty), clear each one's carrier,
persist them and delete the boat. `datastore.get(keys)` yields only the
documents that exist. -/
def deleteBoat (db : DB) (boatId : Option Id) : HttpResp × DB :=
  match boatId with
  | none => (⟨404, some BOAT_NOT_FOUND⟩, db)
  | some bid =>
    match alookup db.boats bid with
    | none => (⟨404, some BOAT_NOT_FOUND⟩, db)
    | some boat =>
      let fetched : List (Id × Load) :=
        boat.loads.filterMap (fun r => (alookup db.loads r.id).map (fun l => (r.id, l)))
      let cleared : List (Id × Load) :=
        fetched.map (fun p => (p.1, { p.2 with carrier := none }))
      (⟨204, none⟩, ⟨adelete db.boats bid, applyUpdates db.loads cleared⟩)

/-- `DELETE /loads/:load_id` (loads router, part_005 lines 77-121 and the
authenticated variant): if the load has a carrier, fetch the carrier boat,
splice out the matching entry from its `loads`, persist it; delete the
load. When the carrier boat does not exist, `carrier.loads` dereferences
undefined and the handler crashes with a TypeError, modelled as `none`. -/
def deleteLoad (db : DB) (loadId : Option Id) : Option (HttpResp × DB) :=
  match loadId with
  | none => some (⟨404, some LOAD_NOT_FOUND⟩, db)
  | some lid =>
    match alookup db.loads lid with
    | none => some (⟨404, some LOAD_NOT_FOUND⟩, db)
    | some load =>
      match load.carrier with
      | none => some (⟨204, none⟩, ⟨db.boats, adelete db.loads lid⟩)
      | some c =>
        match alookup db.boats c.id with
        | none => none
        | some carrier =>
          let carrier' : Boat :=
            { carrier with
              loads := spliceOne carrier.loads (findIndexJs carrier.loads lid) }
          some (⟨204, none⟩, ⟨aupdate db.boats c.id carrier', adelete db.loads lid⟩)

/-- Direction one of the bidirectional consistency invariant, per load
entry: if the load's carrier names an existing boat, that boat's `loads`
array contains an entry with this load's id. -/
def carrierPointsBack (db : DB) (lid : Id) (load : Load) : Bool :=
  match load.carrier with
  | none => true
  | some c =>
    match alookup db.boats c.id with
    | none => true
    | some b => b.loads.any (fun r => r.id == lid)

/-- Direction two of the bidirectional consistency invariant, per
back-reference: every entry in a boat's `loads` names an existing load
whose carrier id is this boat's id. -/
def refPointsForward (db : DB) (bid : Id) (r : LoadRef) : Bool :=
  match alookup db.loads r.id with
  | none => false
  | some load =>
    match load.carrier with
    | none => false
    | some c => c.id == bid

/-- The bidirectional consistency invariant of spec section 3, checked over
every stored document. -/
def checkInv (db : DB) : Bool :=
  db.loads.all (fun p => carrierPointsBack db p.1 p.2) &&
  db.boats.all (fun q => q.2.loads.all (refPointsForward db q.1))

/-- No boat's `loads` array holds two back-references with the same id
(the denormalized cache reading of spec section 3). -/
def nodupRefs (db : DB) : Bool :=
  db.boats.all (fun q => decide ((q.2.loads.map LoadRef.id).Nodup))

/-! ### Association-list lemmas -/

theorem alookup_cons {α : Type} (k₀ : Id) (v₀ : α) (rest : List (Id × α))
    (k : Id) :
    alookup ((k₀, v₀) :: rest) k = if k₀ = k then some v₀ else alookup rest k :=
  rfl

theorem aupdate_cons {α : Type} (k₀ : Id) (v₀ : α) (rest : List (Id × α))
    (k : Id) (v : α) :
    aupdate ((k₀, v₀) :: rest) k v =
      (if k₀ = k then (k, v) else (k₀, v₀)) :: aupdate rest k v :=
  rfl

theorem adelete_cons {α : Type} (k₀ : Id) (v₀ : α) (rest : List (Id × α))
    (k : Id) :
    adelete ((k₀, v₀) :: rest) k =
      if k₀ = k then adelete rest k else (k₀, v₀) :: adelete rest k := by
  by_cases h : k₀ = k <;>
    simp [adelete, List.filter_cons, h]

theorem alookup_aupdate_self {α : Type} (l : List (Id × α)) (k : Id) (v : α) :
    alookup (aupdate l k v) k = (alookup l k).map (fun _ => v) := by
  induction l with
  | nil => rfl
  | cons p rest ih =>
    obtain ⟨k₀, v₀⟩ := p
    rw [aupdate_cons]
    by_cases h : k₀ = k
    · rw [if_pos h, alookup_cons, if_pos rfl, alookup_cons, if_pos h]
      rfl
    · rw [if_neg h, alookup_cons, if_neg h, alookup_cons, if_neg h, ih]

theorem alookup_aupdate_ne {α : Type} (l : List (Id × α)) {k k' : Id} (v : α)
    (h : k' ≠ k) : alookup (aupdate l k' v) k = alookup l k := by
  induction l with
  | nil => rfl
  | cons p rest ih =>
    obtain ⟨k₀, v₀⟩ := p
    rw [aupdate_cons]
    by_cases h₀ : k₀ = k'
    · rw [if_pos h₀, alookup_cons, if_neg h, alookup_cons,
        if_neg (h₀ ▸ (h₀ ▸ h : k' ≠ k) : k₀ = k → False), ih]
    · rw [if_neg h₀, alookup_cons, alookup_cons, ih]

theorem alookup_adelete_self {α : Type} (l : List (Id × α)) (k : Id) :
    alookup (adelete l k) k = none := by
  induction l with
  | nil => rfl
  | cons p rest ih =>
    obtain ⟨k₀, v₀⟩ := p
    rw [adelete_cons]
    by_cases h : k₀ = k
    · rw [if_pos h]
      exact ih
    · rw [if_neg h, alookup_cons, if_neg h]
      exact ih

theorem alookup_adelete_ne {α : Type} (l : List (Id × α)) {k k' : Id}
    (h : k' ≠ k) : alookup (adelete l k') k = alookup l k := by
  induction l with
  | nil => rfl
  | cons p rest ih =>
    obtain ⟨k₀, v₀⟩ := p
    rw [adelete_cons]
    by_cases h₀ : k₀ = k'
    · subst h₀
      rw [if_pos rfl, alookup_cons, if_neg h, ih]
    · rw [if_neg h₀, alookup_cons, alookup_cons, ih]

theorem alookup_mem {α : Type} {l : List (Id × α)} {k : Id} {v : α}
    (h : alookup l k = some v) : (k, v) ∈ l := by
  induction l with
  | nil => simp [alookup] at h
  | cons p rest ih =>
    obtain ⟨k₀, v₀⟩ := p
    rw [alookup_cons] at h
    by_cases h₀ : k₀ = k
    · rw [if_pos h₀] at h
      cases h
      exact h₀ ▸ List.mem_cons_self _ _
    · rw [if_neg h₀] at h
      exact List.mem_cons_of_mem _ (ih h)

theorem mem_aupdate_cases {α : Type} {l : List (Id × α)} {k : Id} {v : α}
    {p : Id × α} (h : p ∈ aupdate l k v) :
    p = (k, v) ∨ (p ∈ l ∧ p.1 ≠ k) := by
  obtain ⟨q, hq, hqe⟩ := List.mem_map.mp h
  by_cases h₀ : q.1 = k
  · simp [h₀] at hqe
    exact Or.inl hqe.symm
  · simp [h₀] at hqe
    exact Or.inr ⟨hqe ▸ hq, hqe ▸ h₀⟩

theorem mem_adelete {α : Type} {l : List (Id × α)} {k : Id} {p : Id × α} :
    p ∈ adelete l k ↔ p ∈ l ∧ p.1 ≠ k := by
  simp [adelete, List.mem_filter, bne]

theorem applyUpdates_eq_map {α : Type} (f : Id → α) :
    ∀ (ups l : List (Id × α)), (∀ p ∈ ups, p.2 = f p.1) →
      applyUpdates l ups =
        l.map (fun q => if ups.any (fun p => p.1 == q.1) then (q.1, f q.1) else q)
  | [], l, _ => by simp [applyUpdates]
  | (k₂, v₂) :: rest, l, h => by
    have hv₂ : v₂ = f k₂ := h _ (List.mem_cons_self _ _)
    have hrest : ∀ p ∈ rest, p.2 = f p.1 := fun p hp => h p (List.mem_cons_of_mem _ hp)
    have ih := applyUpdates_eq_map f rest (aupdate l k₂ v₂) hrest
    show applyUpdates (aupdate l k₂ v₂) rest = _
    rw [ih, aupdate, List.map_map]
    refine List.map_congr_left (fun q _ => ?_)
    by_cases hq : q.1 = k₂
    · by_cases hr : rest.any (fun p => p.1 == q.1) = true <;>
        simp [Function.comp, hq, hr, hv₂]
    · have : (k₂ == q.1) = false := by
        simp [Ne.symm hq]
      by_cases hr : rest.any (fun p => p.1 == q.1) = true <;>
        simp [Function.comp, hq, hr, this]

theorem alookup_map_update {α : Type} (f : Id → α) (cond : Id → Bool)
    (l : List (Id × α)) (k : Id) :
    alookup (l.map (fun q => if cond q.1 then (q.1, f q.1) else q)) k =
      if cond k then (alookup l k).map (fun _ => f k) else alookup l k := by
  induction l with
  | nil => cases hc : cond k <;> simp [alookup]
  | cons p rest ih =>
    obtain ⟨k₀, v₀⟩ := p
    by_cases h₀ : k₀ = k
    · subst h₀
      cases hc : cond k₀ <;>
        simp [alookup_cons, hc, ih]
    · cases hc : cond k₀ <;>
        simp only [List.map_cons, hc, if_true, if_false, Bool.false_eq_true,
          alookup_cons, if_neg h₀, ih]

theorem alookup_applyUpdates {α : Type} (f : Id → α) (ups l : List (Id × α))
    (h : ∀ p ∈ ups, p.2 = f p.1) (k : Id) :
    alookup (applyUpdates l ups) k =
      if ups.any (fun p => p.1 == k) then (alookup l k).map (fun _ => f k)
      else alookup l k := by
  rw [applyUpdates_eq_map f ups l h]
  exact alookup_map_update f (fun a => ups.any (fun p => p.1 == a)) l k

/-! ### findIndex / splice lemmas -/

theorem findIndexJs_neg {l : List LoadRef} {lid : Id}
    (h : ∀ r ∈ l, r.id ≠ lid) : findIndexJs l lid = -1 := by
  induction l with
  | nil => rfl
  | cons r rest ih =>
    have hr : r.id ≠ lid := h r (List.mem_cons_self _ _)
    have hrest := ih (fun x hx => h x (List.mem_cons_of_mem _ hx))
    simp only [findIndexJs, if_neg hr, hrest]
    rfl

theorem findIndexJs_nonneg {l : List LoadRef} {lid : Id}
    (h : ∃ r ∈ l, r.id = lid) : 0 ≤ findIndexJs l lid := by
  induction l with
  | nil => simp at h
  | cons r rest ih =>
    by_cases hr : r.id = lid
    · simp [findIndexJs, hr]
    · obtain ⟨x, hx, hxid⟩ := h
      rcases List.mem_cons.mp hx with rfl | hx'
      · exact absurd hxid hr
      · have := ih ⟨x, hx', hxid⟩
        simp only [findIndexJs, if_neg hr]
        omega

theorem spliceOne_findIndexJs {l : List LoadRef} {lid : Id}
    (h : ∃ r ∈ l, r.id = lid) :
    spliceOne l (findIndexJs l lid) = eraseRef l lid := by
  induction l with
  | nil => simp at h
  | cons r rest ih =>
    by_cases hr : r.id = lid
    · simp only [findIndexJs, if_pos hr, eraseRef, spliceOne]
      norm_num [spliceOne]
    · obtain ⟨x, hx, hxid⟩ := h
      rcases List.mem_cons.mp hx with rfl | hx'
      · exact absurd hxid hr
      · have hrest : ∃ r ∈ rest, r.id = lid := ⟨x, hx', hxid⟩
        have hj := findIndexJs_nonneg hrest
        have hnotlt : ¬ findIndexJs rest lid < 0 := by omega
        simp only [findIndexJs, if_neg hr, if_neg hnotlt]
        rw [eraseRef, if_neg hr, ← ih hrest]
        simp only [spliceOne]
        have h1 : ¬ (findIndexJs rest lid + 1 < 0) := by omega
        have h2 : ¬ (findIndexJs rest lid < 0) := hnotlt
        rw [if_neg h1, if_neg h2]
        have h3 : (findIndexJs rest lid + 1).toNat = (findIndexJs rest lid).toNat + 1 := by
          omega
        rw [h3, List.take_succ_cons, List.drop_succ_cons]
        rfl

theorem spliceOne_neg_one {l : List LoadRef} (h : l ≠ []) :
    spliceOne l (-1) = l.dropLast := by
  have hl : 0 < l.length := List.length_pos.mpr h
  simp only [spliceOne]
  rw [if_pos (by omega : (-1 : Int) < 0)]
  have h1 : (max ((l.length : Int) + -1) 0).toNat = l.length - 1 := by omega
  rw [h1]
  have h2 : l.length - 1 + 1 = l.length := by omega
  rw [h2, List.drop_length, List.append_nil, List.dropLast_eq_take]

theorem eraseRef_sublist (l : List LoadRef) (lid : Id) :
    (eraseRef l lid).Sublist l := by
  induction l with
  | nil => exact List.Sublist.refl _
  | cons r rest ih =>
    by_cases hr : r.id = lid
    · rw [eraseRef, if_pos hr]
      exact List.sublist_cons_self _ _
    · rw [eraseRef, if_neg hr]
      exact ih.cons₂ r

theorem mem_of_mem_eraseRef {l : List LoadRef} {lid : Id} {r : LoadRef}
    (h : r ∈ eraseRef l lid) : r ∈ l :=
  (eraseRef_sublist l lid).subset h

theorem mem_eraseRef_of_ne {l : List LoadRef} {lid : Id} {r : LoadRef}
    (h : r ∈ l) (hne : r.id ≠ lid) : r ∈ eraseRef l lid := by
  induction l with
  | nil => simp at h
  | cons x rest ih =>
    by_cases hx : x.id = lid
    · rw [eraseRef, if_pos hx]
      rcases List.mem_cons.mp h with rfl | h'
      · exact absurd hx hne
      · exact h'
    · rw [eraseRef, if_neg hx]
      rcases List.mem_cons.mp h with rfl | h'
      · exact List.mem_cons_self _ _
      · exact List.mem_cons_of_mem _ (ih h')

theorem eraseRef_id_ne {l : List LoadRef} {lid : Id} {r : LoadRef}
    (hnd : (l.map LoadRef.id).Nodup) (h : r ∈ eraseRef l lid) : r.id ≠ lid := by
  induction l with
  | nil => simp [eraseRef] at h
  | cons x rest ih =>
    rw [List.map_cons, List.nodup_cons] at hnd
    by_cases hx : x.id = lid
    · rw [eraseRef, if_pos hx] at h
      intro hr
      exact hnd.1 (hx ▸ hr ▸ List.mem_map_of_mem LoadRef.id h)
    · rw [eraseRef, if_neg hx] at h
      rcases List.mem_cons.mp h with rfl | h'
      · exact hx
      · exact ih hnd.2 h'

theorem nodup_eraseRef {l : List LoadRef} {lid : Id}
    (hnd : (l.map LoadRef.id).Nodup) :
    ((eraseRef l lid).map LoadRef.id).Nodup :=
  hnd.sublist ((eraseRef_sublist l lid).map LoadRef.id)

theorem eraseRef_append_singleton {l : List LoadRef} {lid : Id}
    (h : ∀ r ∈ l, r.id ≠ lid) :
    eraseRef (l ++ [⟨lid⟩]) lid = l := by
  induction l with
  | nil => simp [eraseRef]
  | cons r rest ih =>
    have hr : r.id ≠ lid := h r (List.mem_cons_self _ _)
    rw [List.cons_append, eraseRef, if_neg hr,
      ih (fun x hx => h x (List.mem_cons_of_mem _ hx))]

/-! ### Invariant characterizations -/

theorem checkInv_iff (db : DB) :
    checkInv db = true ↔
      (∀ p ∈ db.loads, carrierPointsBack db p.1 p.2 = true) ∧
      (∀ q ∈ db.boats, ∀ r ∈ q.2.loads, refPointsForward db q.1 r = true) := by
  simp [checkInv, List.all_eq_true]

theorem nodupRefs_iff (db : DB) :
    nodupRefs db = true ↔ ∀ q ∈ db.boats, (q.2.loads.map LoadRef.id).Nodup := by
  simp [nodupRefs, List.all_eq_true]

theorem carrierPointsBack_none {db : DB} {lid : Id} {load : Load}
    (h : load.carrier = none) : carrierPointsBack db lid load = true := by
  simp [carrierPointsBack, h]

theorem carrierPointsBack_dangling {db : DB} {lid : Id} {load : Load} {c : Carrier}
    (hc : load.carrier = some c) (hb : alookup db.boats c.id = none) :
    carrierPointsBack db lid load = true := by
  simp [carrierPointsBack, hc, hb]

theorem carrierPointsBack_found {db : DB} {lid : Id} {load : Load} {c : Carrier}
    {b : Boat} (hc : load.carrier = some c) (hb : alookup db.boats c.id = some b) :
    carrierPointsBack db lid load = true ↔ ∃ r ∈ b.loads, r.id = lid := by
  simp [carrierPointsBack, hc, hb, List.any_eq_true]

theorem refPointsForward_iff {db : DB} {bid : Id} {r : LoadRef} :
    refPointsForward db bid r = true ↔
      ∃ load, alookup db.loads r.id = some load ∧
        ∃ c, load.carrier = some c ∧ c.id = bid := by
  cases hl : alookup db.loads r.id with
  | none => simp [refPointsForward, hl]
  | some load =>
    cases hc : load.carrier with
    | none => simp [refPointsForward, hl, hc]
    | some c => simp [refPointsForward, hl, hc]

/-! ### Invariant preservation -/

theorem no_ref_to_unassigned {db : DB} {lid : Id} {load : Load}
    (hInv2 : ∀ q ∈ db.boats, ∀ r ∈ q.2.loads, refPointsForward db q.1 r = true)
    (hl : alookup db.loads lid = some load) (hc : load.carrier = none) :
    ∀ q ∈ db.boats, ∀ r ∈ q.2.loads, r.id ≠ lid := by
  intro q hq r hr hrid
  obtain ⟨load₀, hl₀, c₀, hc₀, _⟩ := refPointsForward_iff.mp (hInv2 q hq r hr)
  rw [hrid, hl] at hl₀
  cases hl₀
  rw [hc] at hc₀
  cases hc₀

theorem preserve_addLoadToBoat (db : DB) (bId lId : Option Id)
    (hInv : checkInv db = true) (hNd : nodupRefs db = true) :
    checkInv (addLoadToBoat db bId lId).2 = true ∧
      nodupRefs (addLoadToBoat db bId lId).2 = true := by
  obtain ⟨hInv1, hInv2⟩ := (checkInv_iff db).mp hInv
  have hNd' := (nodupRefs_iff db).mp hNd
  cases bId with
  | none => cases lId <;> exact ⟨hInv, hNd⟩
  | some bid =>
    cases lId with
    | none => exact ⟨hInv, hNd⟩
    | some lid =>
      cases hb : alookup db.boats bid with
      | none => simp only [addLoadToBoat, hb]; exact ⟨hInv, hNd⟩
      | some boat =>
        cases hl : alookup db.loads lid with
        | none => simp only [addLoadToBoat, hb, hl]; exact ⟨hInv, hNd⟩
        | some load =>
          cases hc : load.carrier with
          | some c => simp only [addLoadToBoat, hb, hl, hc]; exact ⟨hInv, hNd⟩
          | none =>
            simp only [addLoadToBoat, hb, hl, hc]
            have hfresh := no_ref_to_unassigned hInv2 hl hc
            refine ⟨(checkInv_iff _).mpr ⟨?_, ?_⟩, (nodupRefs_iff _).mpr ?_⟩
            · -- direction 1 over the updated loads
              intro p hp
              rcases mem_aupdate_cases hp with rfl | ⟨hpmem, hpne⟩
              · have hlook : alookup (aupdate db.boats bid
                    { boat with loads := boat.loads ++ [⟨lid⟩] }) bid =
                    some { boat with loads := boat.loads ++ [⟨lid⟩] } := by
                  rw [alookup_aupdate_self, hb]
                  rfl
                refine (carrierPointsBack_found rfl hlook).mpr ?_
                exact ⟨⟨lid⟩, List.mem_append_right _ (List.mem_singleton_self _), rfl⟩
              · cases hpc : p.2.carrier with
                | none => exact carrierPointsBack_none hpc
                | some c₀ =>
                  by_cases hcb : c₀.id = bid
                  · have hlook : alookup (aupdate db.boats bid
                        { boat with loads := boat.loads ++ [⟨lid⟩] }) c₀.id =
                        some { boat with loads := boat.loads ++ [⟨lid⟩] } := by
                      rw [hcb, alookup_aupdate_self, hb]
                      rfl
                    refine (carrierPointsBack_found hpc hlook).mpr ?_
                    obtain ⟨r, hrmem, hrid⟩ :=
                      (carrierPointsBack_found hpc (hcb ▸ hb)).mp (hInv1 p hpmem)
                    exact ⟨r, List.mem_append_left _ hrmem, hrid⟩
                  · have hlook : alookup (aupdate db.boats bid
                        { boat with loads := boat.loads ++ [⟨lid⟩] }) c₀.id =
                        alookup db.boats c₀.id := alookup_aupdate_ne _ _ (fun h => hcb h.symm)
                    cases hb₀ : alookup db.boats c₀.id with
                    | none => exact carrierPointsBack_dangling hpc (hlook.trans hb₀)
                    | some b₀ =>
                      refine (carrierPointsBack_found hpc (hlook.trans hb₀)).mpr ?_
                      exact (carrierPointsBack_found hpc hb₀).mp (hInv1 p hpmem)
            · -- direction 2 over the updated boats
              intro q hq r hr
              rcases mem_aupdate_cases hq with rfl | ⟨hqmem, hqne⟩
              · rcases List.mem_append.mp hr with hr1 | hr2
                · obtain ⟨load₀, hl₀, c₀, hc₀, hcid₀⟩ :=
                    refPointsForward_iff.mp (hInv2 (bid, boat) (alookup_mem hb) r hr1)
                  have hrne : r.id ≠ lid := hfresh (bid, boat) (alookup_mem hb) r hr1
                  refine refPointsForward_iff.mpr ⟨load₀, ?_, c₀, hc₀, hcid₀⟩
                  show alookup (aupdate db.loads lid _) r.id = some load₀
                  rw [alookup_aupdate_ne _ _ (fun h => hrne h.symm)]
                  exact hl₀
                · rw [List.mem_singleton.mp hr2]
                  have hlook : alookup (aupdate db.loads lid
                      { load with carrier := some ⟨bid, some boat.name⟩ }) lid =
                      some { load with carrier := some ⟨bid, some boat.name⟩ } := by
                    rw [alookup_aupdate_self, hl]
                    rfl
                  exact refPointsForward_iff.mpr
                    ⟨{ load with carrier := some ⟨bid, some boat.name⟩ }, hlook,
                      ⟨bid, some boat.name⟩, rfl, rfl⟩
              · obtain ⟨load₀, hl₀, c₀, hc₀, hcid₀⟩ :=
                  refPointsForward_iff.mp (hInv2 q hqmem r hr)
                have hrne : r.id ≠ lid := hfresh q hqmem r hr
                refine refPointsForward_iff.mpr ⟨load₀, ?_, c₀, hc₀, hcid₀⟩
                show alookup (aupdate db.loads lid _) r.id = some load₀
                rw [alookup_aupdate_ne _ _ (fun h => hrne h.symm)]
                exact hl₀
            · -- back-reference ids stay duplicate-free
              intro q hq
              rcases mem_aupdate_cases hq with rfl | ⟨hqmem, hqne⟩
              · show ((boat.loads ++ [({ id := lid } : LoadRef)]).map LoadRef.id).Nodup
                rw [List.map_append]
                refine List.Nodup.append (hNd' (bid, boat) (alookup_mem hb)) ?_ ?_
                · exact List.nodup_singleton _
                · intro a ha hb'
                  obtain ⟨r, hrmem, hrid⟩ := List.mem_map.mp ha
                  simp only [List.map_cons, List.map_nil, List.mem_singleton] at hb'
                  exact hfresh (bid, boat) (alookup_mem hb) r hrmem (hrid.trans hb')
              · exact hNd' q hqmem

theorem preserve_removeLoadFromBoat (db : DB) (bId lId : Option Id)
    (hInv : checkInv db = true) (hNd : nodupRefs db = true) :
    checkInv (removeLoadFromBoat db bId lId).2 = true ∧
      nodupRefs (removeLoadFromBoat db bId lId).2 = true := by
  obtain ⟨hInv1, hInv2⟩ := (checkInv_iff db).mp hInv
  have hNd' := (nodupRefs_iff db).mp hNd
  cases bId with
  | none => cases lId <;> exact ⟨hInv, hNd⟩
  | some bid =>
    cases lId with
    | none => exact ⟨hInv, hNd⟩
    | some lid =>
      cases hb : alookup db.boats bid with
      | none => simp only [removeLoadFromBoat, hb]; exact ⟨hInv, hNd⟩
      | some boat =>
        cases hl : alookup db.loads lid with
        | none => simp only [removeLoadFromBoat, hb, hl]; exact ⟨hInv, hNd⟩
        | some load =>
          cases hc : load.carrier with
          | none => simp only [removeLoadFromBoat, hb, hl, hc]; exact ⟨hInv, hNd⟩
          | some c =>
            by_cases hcid : c.id = bid
            · simp only [removeLoadFromBoat, hb, hl, hc, if_pos hcid]
              have hexists : ∃ r ∈ boat.loads, r.id = lid :=
                (carrierPointsBack_found hc (hcid ▸ hb)).mp
                  (hInv1 (lid, load) (alookup_mem hl))
              have hsplice : spliceOne boat.loads (findIndexJs boat.loads lid) =
                  eraseRef boat.loads lid := spliceOne_findIndexJs hexists
              have hndb : (boat.loads.map LoadRef.id).Nodup :=
                hNd' (bid, boat) (alookup_mem hb)
              rw [hsplice]
              refine ⟨(checkInv_iff _).mpr ⟨?_, ?_⟩, (nodupRefs_iff _).mpr ?_⟩
              · intro p hp
                rcases mem_aupdate_cases hp with rfl | ⟨hpmem, hpne⟩
                · exact carrierPointsBack_none rfl
                · cases hpc : p.2.carrier with
                  | none => exact carrierPointsBack_none hpc
                  | some c₀ =>
                    by_cases hcb : c₀.id = bid
                    · have hlook : alookup (aupdate db.boats bid
                          { boat with loads := eraseRef boat.loads lid }) c₀.id =
                          some { boat with loads := eraseRef boat.loads lid } := by
                        rw [hcb, alookup_aupdate_self, hb]
                        rfl
                      refine (carrierPointsBack_found hpc hlook).mpr ?_
                      obtain ⟨r, hrmem, hrid⟩ :=
                        (carrierPointsBack_found hpc (hcb ▸ hb)).mp (hInv1 p hpmem)
                      exact ⟨r, mem_eraseRef_of_ne hrmem (hrid ▸ hpne), hrid⟩
                    · have hlook : alookup (aupdate db.boats bid
                          { boat with loads := eraseRef boat.loads lid }) c₀.id =
                          alookup db.boats c₀.id :=
                        alookup_aupdate_ne _ _ (fun h => hcb h.symm)
                      cases hb₀ : alookup db.boats c₀.id with
                      | none => exact carrierPointsBack_dangling hpc (hlook.trans hb₀)
                      | some b₀ =>
                        refine (carrierPointsBack_found hpc (hlook.trans hb₀)).mpr ?_
                        exact (carrierPointsBack_found hpc hb₀).mp (hInv1 p hpmem)
              · intro q hq r hr
                rcases mem_aupdate_cases hq with rfl | ⟨hqmem, hqne⟩
                · have hrmem : r ∈ eraseRef boat.loads lid := hr
                  have hrmem' : r ∈ boat.loads := mem_of_mem_eraseRef hrmem
                  have hrne : r.id ≠ lid := eraseRef_id_ne hndb hrmem
                  obtain ⟨load₀, hl₀, c₀, hc₀, hcid₀⟩ :=
                    refPointsForward_iff.mp
                      (hInv2 (bid, boat) (alookup_mem hb) r hrmem')
                  refine refPointsForward_iff.mpr ⟨load₀, ?_, c₀, hc₀, hcid₀⟩
                  show alookup (aupdate db.loads lid _) r.id = some load₀
                  rw [alookup_aupdate_ne _ _ (fun h => hrne h.symm)]
                  exact hl₀
                · obtain ⟨load₀, hl₀, c₀, hc₀, hcid₀⟩ :=
                    refPointsForward_iff.mp (hInv2 q hqmem r hr)
                  have hrne : r.id ≠ lid := by
                    intro hrid
                    rw [hrid, hl] at hl₀
                    cases hl₀
                    rw [hc] at hc₀
                    cases hc₀
                    exact hqne (hcid₀ ▸ hcid)
                  refine refPointsForward_iff.mpr ⟨load₀, ?_, c₀, hc₀, hcid₀⟩
                  show alookup (aupdate db.loads lid _) r.id = some load₀
                  rw [alookup_aupdate_ne _ _ (fun h => hrne h.symm)]
                  exact hl₀
              · intro q hq
                rcases mem_aupdate_cases hq with rfl | ⟨hqmem, hqne⟩
                · exact nodup_eraseRef hndb
                · exact hNd' q hqmem
            · simp only [removeLoadFromBoat, hb, hl, hc, if_neg hcid]
              exact ⟨hInv, hNd⟩

theorem preserve_deleteLoad (db : DB) (lId : Option Id) (res : HttpResp × DB)
    (hres : deleteLoad db lId = some res)
    (hInv : checkInv db = true) (hNd : nodupRefs db = true) :
    checkInv res.2 = true ∧ nodupRefs res.2 = true := by
  obtain ⟨hInv1, hInv2⟩ := (checkInv_iff db).mp hInv
  have hNd' := (nodupRefs_iff db).mp hNd
  cases lId with
  | none =>
    cases hres
    exact ⟨hInv, hNd⟩
  | some lid =>
    cases hl : alookup db.loads lid with
    | none =>
      simp only [deleteLoad, hl] at hres
      cases hres
      exact ⟨hInv, hNd⟩
    | some load =>
      cases hc : load.carrier with
      | none =>
        simp only [deleteLoad, hl, hc] at hres
        cases hres
        have hfresh := no_ref_to_unassigned hInv2 hl hc
        refine ⟨(checkInv_iff _).mpr ⟨?_, ?_⟩, (nodupRefs_iff _).mpr ?_⟩
        · intro p hp
          exact hInv1 p (mem_adelete.mp hp).1
        · intro q hq r hr
          obtain ⟨load₀, hl₀, c₀, hc₀, hcid₀⟩ :=
            refPointsForward_iff.mp (hInv2 q hq r hr)
          have hrne : r.id ≠ lid := hfresh q hq r hr
          refine refPointsForward_iff.mpr ⟨load₀, ?_, c₀, hc₀, hcid₀⟩
          show alookup (adelete db.loads lid) r.id = some load₀
          rw [alookup_adelete_ne _ (fun h => hrne h.symm)]
          exact hl₀
        · exact hNd'
      | some c =>
        cases hcb : alookup db.boats c.id with
        | none =>
          simp only [deleteLoad, hl, hc, hcb] at hres
          cases hres
        | some carrier =>
          simp only [deleteLoad, hl, hc, hcb] at hres
          cases hres
          have hexists : ∃ r ∈ carrier.loads, r.id = lid :=
            (carrierPointsBack_found hc hcb).mp
              (hInv1 (lid, load) (alookup_mem hl))
          have hsplice : spliceOne carrier.loads (findIndexJs carrier.loads lid) =
              eraseRef carrier.loads lid := spliceOne_findIndexJs hexists
          have hndb : (carrier.loads.map LoadRef.id).Nodup :=
            hNd' (c.id, carrier) (alookup_mem hcb)
          rw [hsplice]
          refine ⟨(checkInv_iff _).mpr ⟨?_, ?_⟩, (nodupRefs_iff _).mpr ?_⟩
          · intro p hp
            obtain ⟨hpmem, hpne⟩ := mem_adelete.mp hp
            cases hpc : p.2.carrier with
            | none => exact carrierPointsBack_none hpc
            | some c₀ =>
              by_cases hcc : c₀.id = c.id
              · have hlook : alookup (aupdate db.boats c.id
                    { carrier with loads := eraseRef carrier.loads lid }) c₀.id =
                    some { carrier with loads := eraseRef carrier.loads lid } := by
                  rw [hcc, alookup_aupdate_self, hcb]
                  rfl
                refine (carrierPointsBack_found hpc hlook).mpr ?_
                obtain ⟨r, hrmem, hrid⟩ :=
                  (carrierPointsBack_found hpc (hcc ▸ hcb)).mp (hInv1 p hpmem)
                exact ⟨r, mem_eraseRef_of_ne hrmem (hrid ▸ hpne), hrid⟩
              · have hlook : alookup (aupdate db.boats c.id
                    { carrier with loads := eraseRef carrier.loads lid }) c₀.id =
                    alookup db.boats c₀.id :=
                  alookup_aupdate_ne _ _ (fun h => hcc h.symm)
                cases hb₀ : alookup db.boats c₀.id with
                | none => exact carrierPointsBack_dangling hpc (hlook.trans hb₀)
                | some b₀ =>
                  refine (carrierPointsBack_found hpc (hlook.trans hb₀)).mpr ?_
                  exact (carrierPointsBack_found hpc hb₀).mp (hInv1 p hpmem)
          · intro q hq r hr
            rcases mem_aupdate_cases hq with rfl | ⟨hqmem, hqne⟩
            · have hrmem : r ∈ eraseRef carrier.loads lid := hr
              have hrmem' : r ∈ carrier.loads := mem_of_mem_eraseRef hrmem
              have hrne : r.id ≠ lid := eraseRef_id_ne hndb hrmem
              obtain ⟨load₀, hl₀, c₀, hc₀, hcid₀⟩ :=
                refPointsForward_iff.mp
                  (hInv2 (c.id, carrier) (alookup_mem hcb) r hrmem')
              refine refPointsForward_iff.mpr ⟨load₀, ?_, c₀, hc₀, hcid₀⟩
              show alookup (adelete db.loads lid) r.id = some load₀
              rw [alookup_adelete_ne _ (fun h => hrne h.symm)]
              exact hl₀
            · obtain ⟨load₀, hl₀, c₀, hc₀, hcid₀⟩ :=
                refPointsForward_iff.mp (hInv2 q hqmem r hr)
              have hrne : r.id ≠ lid := by
                intro hrid
                rw [hrid, hl] at hl₀
                cases hl₀
                rw [hc] at hc₀
                cases hc₀
                exact hqne hcid₀.symm
              refine refPointsForward_iff.mpr ⟨load₀, ?_, c₀, hc₀, hcid₀⟩
              show alookup (adelete db.loads lid) r.id = some load₀
              rw [alookup_adelete_ne _ (fun h => hrne h.symm)]
              exact hl₀
          · intro q hq
            rcases mem_aupdate_cases hq with rfl | ⟨hqmem, hqne⟩
            · exact nodup_eraseRef hndb
            · exact hNd' q hqmem

/-- The cleared copy of the load stored at a key, as the delete-boat handler
persists it (`load.carrier = null` applied to the fetched document); the
fallback value is never reached for keys the handler actually updates. -/
def clearAt (db : DB) (k : Id) : Load :=
  match alookup db.loads k with
  | some l => { l with carrier := none }
  | none => ⟨0, "", "", none⟩

theorem clearAt_carrier (db : DB) (k : Id) : (clearAt db k).carrier = none := by
  unfold clearAt
  cases alookup db.loads k <;> rfl

theorem preserve_deleteBoat (db : DB) (bId : Option Id)
    (hInv : checkInv db = true) (hNd : nodupRefs db = true) :
    checkInv (deleteBoat db bId).2 = true ∧
      nodupRefs (deleteBoat db bId).2 = true := by
  obtain ⟨hInv1, hInv2⟩ := (checkInv_iff db).mp hInv
  have hNd' := (nodupRefs_iff db).mp hNd
  cases bId with
  | none => exact ⟨hInv, hNd⟩
  | some bid =>
    cases hb : alookup db.boats bid with
    | none => simp only [deleteBoat, hb]; exact ⟨hInv, hNd⟩
    | some boat =>
      simp only [deleteBoat, hb]
      set ups : List (Id × Load) :=
        (boat.loads.filterMap
          (fun r => (alookup db.loads r.id).map (fun l => (r.id, l)))).map
          (fun p => (p.1, { p.2 with carrier := none })) with hups
      have hclr : ∀ p ∈ ups, p.2 = clearAt db p.1 := by
        intro p hp
        rw [hups] at hp
        obtain ⟨pf, hpf, hpe⟩ := List.mem_map.mp hp
        obtain ⟨r, hr, hmap⟩ := List.mem_filterMap.mp hpf
        cases hlr : alookup db.loads r.id with
        | none => rw [hlr] at hmap; cases hmap
        | some l =>
          rw [hlr] at hmap
          cases hmap
          cases hpe
          show ({ l with carrier := none } : Load) = clearAt db r.id
          rw [clearAt, hlr]
      have hupkeys : ∀ k, ups.any (fun p => p.1 == k) = true →
          ∃ r ∈ boat.loads, r.id = k ∧ ∃ l, alookup db.loads k = some l := by
        intro k hk
        obtain ⟨p, hp, hpk⟩ := List.any_eq_true.mp hk
        rw [hups] at hp
        obtain ⟨pf, hpf, hpe⟩ := List.mem_map.mp hp
        obtain ⟨r, hr, hmap⟩ := List.mem_filterMap.mp hpf
        cases hlr : alookup db.loads r.id with
        | none => rw [hlr] at hmap; cases hmap
        | some l =>
          rw [hlr] at hmap
          cases hmap
          cases hpe
          have hpk' : r.id = k := by simpa using hpk
          exact ⟨r, hr, hpk', l, hpk' ▸ hlr⟩
      refine ⟨(checkInv_iff _).mpr ⟨?_, ?_⟩, (nodupRefs_iff _).mpr ?_⟩
      · intro p hp
        have hp' : p ∈ applyUpdates db.loads ups := hp
        rw [applyUpdates_eq_map (clearAt db) ups db.loads hclr] at hp'
        obtain ⟨q, hq, hgq⟩ := List.mem_map.mp hp'
        by_cases hcond : ups.any (fun p => p.1 == q.1) = true
        · rw [if_pos hcond] at hgq
          cases hgq
          exact carrierPointsBack_none (clearAt_carrier db q.1)
        · rw [if_neg hcond] at hgq
          subst hgq
          cases hpc : q.2.carrier with
          | none => exact carrierPointsBack_none hpc
          | some c₀ =>
            by_cases hcb : c₀.id = bid
            · have hlook : alookup (adelete db.boats bid) c₀.id = none := by
                rw [hcb]
                exact alookup_adelete_self _ _
              exact carrierPointsBack_dangling hpc hlook
            · have hlook : alookup (adelete db.boats bid) c₀.id =
                  alookup db.boats c₀.id :=
                alookup_adelete_ne _ (fun h => hcb h.symm)
              cases hb₀ : alookup db.boats c₀.id with
              | none => exact carrierPointsBack_dangling hpc (hlook.trans hb₀)
              | some b₀ =>
                refine (carrierPointsBack_found hpc (hlook.trans hb₀)).mpr ?_
                exact (carrierPointsBack_found hpc hb₀).mp (hInv1 q hq)
      · intro q hq r hr
        obtain ⟨hqmem, hqne⟩ := mem_adelete.mp hq
        obtain ⟨load₀, hl₀, c₀, hc₀, hcid₀⟩ :=
          refPointsForward_iff.mp (hInv2 q hqmem r hr)
        cases hcond : ups.any (fun p => p.1 == r.id) with
        | true =>
          exfalso
          obtain ⟨r', hr'mem, hr'id, l, hlk⟩ := hupkeys r.id hcond
          obtain ⟨load₁, hl₁, c₁, hc₁, hcid₁⟩ :=
            refPointsForward_iff.mp
              (hInv2 (bid, boat) (alookup_mem hb) r' hr'mem)
          rw [hr'id, hl₀] at hl₁
          cases hl₁
          rw [hc₀] at hc₁
          cases hc₁
          exact hqne (hcid₀ ▸ hcid₁)
        | false =>
          refine refPointsForward_iff.mpr ⟨load₀, ?_, c₀, hc₀, hcid₀⟩
          show alookup (applyUpdates db.loads ups) r.id = some load₀
          rw [alookup_applyUpdates (clearAt db) ups db.loads hclr, hcond]
          simpa using hl₀
      · intro q hq
        exact hNd' q (mem_adelete.mp hq).1

/-- Decomposition of a ref list at its first entry with a given id: the
combined effect of `findIndex` and `splice(index, 1)` removes exactly that
entry and keeps every other entry, in order. -/
theorem eraseRef_decomp {l : List LoadRef} {lid : Id}
    (h : ∃ r ∈ l, r.id = lid) :
    ∃ pre post, l = pre ++ ⟨lid⟩ :: post ∧ (∀ r ∈ pre, r.id ≠ lid) ∧
      eraseRef l lid = pre ++ post := by
  induction l with
  | nil => simp at h
  | cons r rest ih =>
    by_cases hr : r.id = lid
    · refine ⟨[], rest, ?_, by simp, ?_⟩
      · obtain ⟨a⟩ := r
        cases hr
        rfl
      · rw [eraseRef, if_pos hr]
        rfl
    · obtain ⟨x, hx, hxid⟩ := h
      rcases List.mem_cons.mp hx with rfl | hx'
      · exact absurd hxid hr
      · obtain ⟨pre, post, heq, hpre, hrw⟩ := ih ⟨x, hx', hxid⟩
        refine ⟨r :: pre, post, by rw [List.cons_append, ← heq], ?_, ?_⟩
        · intro y hy
          rcases List.mem_cons.mp hy with rfl | hy'
          · exact hr
          · exact hpre y hy'
        · rw [eraseRef, if_neg hr, hrw]
          rfl

/-! ### Claim theorems: the relationship manager -/

/-- A state satisfying the literal bidirectional invariant in which boat 1
holds a duplicated back-reference to load 7. -/
def dupRefDB : DB :=
  ⟨[(1, ⟨"Orca", "sail", 12, "u", [⟨7⟩, ⟨7⟩]⟩)],
   [(7, ⟨3, "beans", "d", some ⟨1, some "Orca"⟩⟩)]⟩

/-- C1 counterexample: the bidirectional invariant as stated (membership in
both directions) admits a state with a duplicated back-reference; a
successful unassign (status 204) from that state leaves a dangling entry in
the boat's `loads`, so the invariant does not hold afterwards. -/
theorem C1_counterexample :
    checkInv dupRefDB = true ∧
      (removeLoadFromBoat dupRefDB (some 1) (some 7)).1.status = 204 ∧
      checkInv (removeLoadFromBoat dupRefDB (some 1) (some 7)).2 = false := by
  decide

/-- C1 (amended): starting from any state that satisfies the bidirectional
consistency invariant and in which no boat's `loads` array lists the same
load id twice, both properties hold again after each mutating relationship
operation: assign, unassign, delete boat, and delete load (for delete load,
whenever the handler completes rather than crashing on a missing carrier
boat); failing requests leave the state unchanged, so the conclusion covers
every completed outcome. -/
theorem C1_invariant_preserved :
    ∀ db : DB, checkInv db = true → nodupRefs db = true →
      (∀ bId lId, checkInv (addLoadToBoat db bId lId).2 = true ∧
          nodupRefs (addLoadToBoat db bId lId).2 = true) ∧
      (∀ bId lId, checkInv (removeLoadFromBoat db bId lId).2 = true ∧
          nodupRefs (removeLoadFromBoat db bId lId).2 = true) ∧
      (∀ bId, checkInv (deleteBoat db bId).2 = true ∧
          nodupRefs (deleteBoat db bId).2 = true) ∧
      (∀ lId res, deleteLoad db lId = some res →
          checkInv res.2 = true ∧ nodupRefs res.2 = true) := by
  intro db hInv hNd
  exact ⟨fun bId lId => preserve_addLoadToBoat db bId lId hInv hNd,
    fun bId lId => preserve_removeLoadFromBoat db bId lId hInv hNd,
    fun bId => preserve_deleteBoat db bId hInv hNd,
    fun lId res hres => preserve_deleteLoad db lId res hres hInv hNd⟩

/-- A small consistent state: boat 1 carries load 7; load 8 is unassigned. -/
def smallDB : DB :=
  ⟨[(1, ⟨"Orca", "sail", 12, "u", [⟨7⟩]⟩)],
   [(7, ⟨3, "beans", "d", some ⟨1, some "Orca"⟩⟩),
    (8, ⟨4, "rice", "d", none⟩)]⟩

/-- Witness for C1: the preservation theorem applied to a concrete
consistent state and the assign operation. -/
theorem C1_invariant_preserved_witness :
    checkInv smallDB = true ∧ nodupRefs smallDB = true ∧
      checkInv (addLoadToBoat smallDB (some 1) (some 8)).2 = true :=
  ⟨by decide, by decide,
    ((C1_invariant_preserved smallDB (by decide) (by decide)).1
      (some 1) (some 8)).1⟩

/-- C2: from any state satisfying the bidirectional invariant, for an
existing boat and an existing unassigned load, assigning (204) and then
unassigning (204) restores the stored load document (carrier back to null)
and the stored boat document (loads exactly its pre-assignment content). -/
theorem C2_assign_unassign_roundtrip :
    ∀ (db : DB) (bid lid : Id) (boat : Boat) (load : Load),
      checkInv db = true →
      alookup db.boats bid = some boat →
      alookup db.loads lid = some load →
      load.carrier = none →
      (addLoadToBoat db (some bid) (some lid)).1.status = 204 ∧
      (removeLoadFromBoat (addLoadToBoat db (some bid) (some lid)).2
          (some bid) (some lid)).1.status = 204 ∧
      alookup (removeLoadFromBoat (addLoadToBoat db (some bid) (some lid)).2
          (some bid) (some lid)).2.boats bid = some boat ∧
      alookup (removeLoadFromBoat (addLoadToBoat db (some bid) (some lid)).2
          (some bid) (some lid)).2.loads lid = some load := by
  intro db bid lid boat load hInv hb hl hc
  obtain ⟨hInv1, hInv2⟩ := (checkInv_iff db).mp hInv
  have hfresh : ∀ r ∈ boat.loads, r.id ≠ lid :=
    no_ref_to_unassigned hInv2 hl hc (bid, boat) (alookup_mem hb)
  simp only [addLoadToBoat, hb, hl, hc]
  have hb1 : alookup (aupdate db.boats bid
      { boat with loads := boat.loads ++ [⟨lid⟩] }) bid =
      some { boat with loads := boat.loads ++ [⟨lid⟩] } := by
    rw [alookup_aupdate_self, hb]
    rfl
  have hl1 : alookup (aupdate db.loads lid
      { load with carrier := some ⟨bid, some boat.name⟩ }) lid =
      some { load with carrier := some ⟨bid, some boat.name⟩ } := by
    rw [alookup_aupdate_self, hl]
    rfl
  simp only [removeLoadFromBoat, hb1, hl1, eq_self_iff_true, if_true]
  have hspl : spliceOne (boat.loads ++ [⟨lid⟩])
      (findIndexJs (boat.loads ++ [⟨lid⟩]) lid) = boat.loads := by
    rw [spliceOne_findIndexJs
        ⟨⟨lid⟩, List.mem_append_right _ (List.mem_singleton_self _), rfl⟩,
      eraseRef_append_singleton hfresh]
  rw [hspl]
  have hboat : ({ boat with loads := boat.loads } : Boat) = boat := rfl
  have hload : ({ load with carrier := none } : Load) = load := by
    rw [← hc]
  refine ⟨trivial, trivial, ?_, ?_⟩
  · rw [alookup_aupdate_self, hb1]
    rfl
  · rw [alookup_aupdate_self, hl1]
    exact congrArg some hload

/-- Witness for C2: the round trip applied to the concrete state
`smallDB`, assigning and unassigning load 8 on boat 1. -/
theorem C2_assign_unassign_roundtrip_witness :
    alookup
      (removeLoadFromBoat (addLoadToBoat smallDB (some 1) (some 8)).2
        (some 1) (some 8)).2.boats 1 =
      some ⟨"Orca", "sail", 12, "u", [⟨7⟩]⟩ :=
  (C2_assign_unassign_roundtrip smallDB 1 8 ⟨"Orca", "sail", 12, "u", [⟨7⟩]⟩
    ⟨4, "rice", "d", none⟩ (by decide) (by decide)
    (by decide) (by decide)).2.2.1

/-- C9: when the load's carrier names this boat but the boat's `loads`
array holds no entry for the load (a state outside the invariant), the
unassign handler still answers 204: `findIndex` yields -1, and
`splice(-1, 1)` removes the final, unrelated back-reference, leaving
`boat.loads.dropLast`. -/
theorem C9_unassign_missing_backref :
    ∀ (db : DB) (bid lid : Id) (boat : Boat) (load : Load) (c : Carrier),
      alookup db.boats bid = some boat →
      alookup db.loads lid = some load →
      load.carrier = some c → c.id = bid →
      (∀ r ∈ boat.loads, r.id ≠ lid) →
      boat.loads ≠ [] →
      findIndexJs boat.loads lid = -1 ∧
      removeLoadFromBoat db (some bid) (some lid) =
        (⟨204, none⟩,
          ⟨aupdate db.boats bid { boat with loads := boat.loads.dropLast },
            aupdate db.loads lid { load with carrier := none }⟩) := by
  intro db bid lid boat load c hb hl hc hcid hfresh hne
  have hidx : findIndexJs boat.loads lid = -1 := findIndexJs_neg hfresh
  refine ⟨hidx, ?_⟩
  simp only [removeLoadFromBoat, hb, hl, hc, if_pos hcid]
  rw [hidx, spliceOne_neg_one hne]

/-- A state violating the invariant: load 7 names boat 1 as carrier, but
boat 1's `loads` lists only load 5. -/
def missingRefDB : DB :=
  ⟨[(1, ⟨"Orca", "sail", 12, "u", [⟨5⟩]⟩)],
   [(7, ⟨3, "beans", "d", some ⟨1, some "Orca"⟩⟩),
    (5, ⟨4, "rice", "d", some ⟨1, some "Orca"⟩⟩)]⟩

/-- Witness for C9: unassigning load 7 from boat 1 in `missingRefDB`
silently drops the back-reference to load 5. -/
theorem C9_unassign_missing_backref_witness :
    removeLoadFromBoat missingRefDB (some 1) (some 7) =
      (⟨204, none⟩,
        ⟨aupdate missingRefDB.boats 1 ⟨"Orca", "sail", 12, "u", []⟩,
          aupdate missingRefDB.loads 7 ⟨3, "beans", "d", none⟩⟩) :=
  (C9_unassign_missing_backref missingRefDB 1 7
    ⟨"Orca", "sail", 12, "u", [⟨5⟩]⟩ ⟨3, "beans", "d", some ⟨1, some "Orca"⟩⟩
    ⟨1, some "Orca"⟩ (by decide) (by decide)
    (by decide) (by decide) (by decide) (by decide)).2

/-- C7: when either path parameter fails to parse as an integer
(JavaScript parseInt yields NaN, making the datastore key lookup reject
with code 3), assign and unassign both answer 404 with the
boat-or-load-not-found error body and leave the store untouched. -/
theorem C7_nonint_ids :
    ∀ (db : DB) (s1 s2 : String),
      jsParseInt s1 = none ∨ jsParseInt s2 = none →
      addLoadToBoat db (jsParseInt s1) (jsParseInt s2) =
        (⟨404, some BOAT_OR_LOAD_NOT_FOUND⟩, db) ∧
      removeLoadFromBoat db (jsParseInt s1) (jsParseInt s2) =
        (⟨404, some BOAT_OR_LOAD_NOT_FOUND⟩, db) := by
  intro db s1 s2 h
  rcases h with h | h
  · rw [h]
    rcases jsParseInt s2 with _ | v <;> exact ⟨rfl, rfl⟩
  · rw [h]
    rcases jsParseInt s1 with _ | v <;> exact ⟨rfl, rfl⟩

/-- Witness for C7: a request with boat id "abc" on a concrete state. -/
theorem C7_nonint_ids_witness :
    addLoadToBoat smallDB (jsParseInt "abc") (jsParseInt "8") =
      (⟨404, some BOAT_OR_LOAD_NOT_FOUND⟩, smallDB) :=
  (C7_nonint_ids smallDB "abc" "8" (Or.inl (by decide))).1

/-- A state whose single boat is owned by "bob" and carries load 7. -/
def ownedDB : DB :=
  ⟨[(1, ⟨"Orca", "sail", 12, "bob", [⟨7⟩]⟩)],
   [(7, ⟨3, "beans", "d", some ⟨1, some "Orca"⟩⟩)]⟩

/-- C3 counterexample: in the authenticated boats router the ownership
check precedes the already-assigned check, so a subject other than the
boat's owner who tries to assign an already-assigned load receives 403 with
the not-owner body, not the already-assigned body. -/
theorem C3_counterexample :
    alookup ownedDB.boats 1 = some ⟨"Orca", "sail", 12, "bob", [⟨7⟩]⟩ ∧
      alookup ownedDB.loads 7 = some ⟨3, "beans", "d", some ⟨1, some "Orca"⟩⟩ ∧
      (⟨3, "beans", "d", some ⟨1, some "Orca"⟩⟩ : Load).carrier ≠ none ∧
      (addLoadToBoatAuth ownedDB "alice" (some 1) (some 7)).1 ≠
        ⟨403, some LOAD_ALREADY_ASSIGNED⟩ ∧
      addLoadToBoatAuth ownedDB "alice" (some 1) (some 7) =
        (⟨403, some NOT_OWNER⟩, ownedDB) := by
  decide

/-- C3 (amended): when both boat and load exist and the load is already
assigned, the unauthenticated assign handler answers 403 with the
already-assigned body for any requester and leaves the store unchanged; in
the authenticated handler this holds exactly when the requester owns the
boat, while a non-owner gets 403 with the not-owner body, likewise with no
modification. -/
theorem C3_already_assigned :
    ∀ (db : DB) (sub : String) (bid lid : Id) (boat : Boat) (load : Load),
      alookup db.boats bid = some boat →
      alookup db.loads lid = some load →
      load.carrier ≠ none →
      addLoadToBoat db (some bid) (some lid) =
        (⟨403, some LOAD_ALREADY_ASSIGNED⟩, db) ∧
      addLoadToBoatAuth db sub (some bid) (some lid) =
        (if boat.owner = sub then (⟨403, some LOAD_ALREADY_ASSIGNED⟩, db)
          else (⟨403, some NOT_OWNER⟩, db)) := by
  intro db sub bid lid boat load hb hl hcne
  cases hc : load.carrier with
  | none => exact absurd hc hcne
  | some c =>
    constructor
    · simp only [addLoadToBoat, hb, hl, hc]
    · by_cases ho : boat.owner = sub
      · have ho' : ¬ boat.owner ≠ sub := fun h => h ho
        simp only [addLoadToBoatAuth, hb, hl, hc, if_neg ho', if_pos ho]
      · simp only [addLoadToBoatAuth, hb, hl, if_pos ho, if_neg ho]

/-- Witness for C3: the boat's owner assigning the already-assigned load 7
receives the already-assigned response. -/
theorem C3_already_assigned_witness :
    addLoadToBoatAuth ownedDB "bob" (some 1) (some 7) =
      (⟨403, some LOAD_ALREADY_ASSIGNED⟩, ownedDB) := by
  have h := (C3_already_assigned ownedDB "bob" 1 7
    ⟨"Orca", "sail", 12, "bob", [⟨7⟩]⟩
    ⟨3, "beans", "d", some ⟨1, some "Orca"⟩⟩
    (by decide) (by decide) (by decide)).2
  rw [if_pos rfl] at h
  exact h

/-- C4: deleting an existing boat whose referenced loads all exist answers
204, removes the boat document, and leaves every referenced load stored
with carrier null; with an empty `loads` array the Loads kind is untouched
(the fetch and update step is skipped). -/
theorem C4_deleteBoat :
    ∀ (db : DB) (bid : Id) (boat : Boat),
      alookup db.boats bid = some boat →
      (∀ r ∈ boat.loads, ∃ l, alookup db.loads r.id = some l) →
      (deleteBoat db (some bid)).1.status = 204 ∧
      (deleteBoat db (some bid)).2.boats = adelete db.boats bid ∧
      alookup (deleteBoat db (some bid)).2.boats bid = none ∧
      (∀ r ∈ boat.loads,
        alookup (deleteBoat db (some bid)).2.loads r.id =
          some (clearAt db r.id) ∧ (clearAt db r.id).carrier = none) ∧
      (boat.loads = [] → (deleteBoat db (some bid)).2.loads = db.loads) := by
  intro db bid boat hb hex
  simp only [deleteBoat, hb]
  set ups : List (Id × Load) :=
    (boat.loads.filterMap
      (fun r => (alookup db.loads r.id).map (fun l => (r.id, l)))).map
      (fun p => (p.1, { p.2 with carrier := none })) with hups
  have hclr : ∀ p ∈ ups, p.2 = clearAt db p.1 := by
    intro p hp
    rw [hups] at hp
    obtain ⟨pf, hpf, hpe⟩ := List.mem_map.mp hp
    obtain ⟨r, hr, hmap⟩ := List.mem_filterMap.mp hpf
    cases hlr : alookup db.loads r.id with
    | none => rw [hlr] at hmap; cases hmap
    | some l =>
      rw [hlr] at hmap
      cases hmap
      cases hpe
      show ({ l with carrier := none } : Load) = clearAt db r.id
      rw [clearAt, hlr]
  refine ⟨trivial, trivial, alookup_adelete_self _ _, ?_, ?_⟩
  · intro r hr
    obtain ⟨l, hlk⟩ := hex r hr
    have hmem : ((r.id, { l with carrier := none }) : Id × Load) ∈ ups := by
      rw [hups]
      refine List.mem_map.mpr ⟨(r.id, l), ?_, rfl⟩
      refine List.mem_filterMap.mpr ⟨r, hr, ?_⟩
      rw [hlk]
      rfl
    have hcond : ups.any (fun p => p.1 == r.id) = true :=
      List.any_eq_true.mpr ⟨(r.id, { l with carrier := none }), hmem, by simp⟩
    refine ⟨?_, clearAt_carrier db r.id⟩
    show alookup (applyUpdates db.loads ups) r.id = some (clearAt db r.id)
    rw [alookup_applyUpdates (clearAt db) ups db.loads hclr, if_pos hcond, hlk]
    rfl
  · intro hempty
    show applyUpdates db.loads ups = db.loads
    rw [hups, hempty]
    rfl

/-- Witness for C4: deleting boat 1 of `smallDB` clears load 7. -/
theorem C4_deleteBoat_witness :
    (deleteBoat smallDB (some 1)).1.status = 204 ∧
      alookup (deleteBoat smallDB (some 1)).2.boats 1 = none :=
  have h := C4_deleteBoat smallDB 1 ⟨"Orca", "sail", 12, "u", [⟨7⟩]⟩
    (by decide)
    (fun r hr => by
      rcases List.mem_singleton.mp hr with rfl
      exact ⟨⟨3, "beans", "d", some ⟨1, some "Orca"⟩⟩, by decide⟩)
  ⟨h.1, h.2.2.1⟩

/-- C5: deleting an existing load whose carrier boat exists and holds a
matching back-reference answers 204, removes exactly the first entry with
the load's id from the carrier's `loads` (leaving every other entry, in
order), persists the updated boat and deletes the load document; with no
carrier only the load document is removed and the Boats kind is untouched. -/
theorem C5_deleteLoad :
    ∀ (db : DB) (lid : Id) (load : Load),
      alookup db.loads lid = some load →
      (∀ c carrier, load.carrier = some c →
        alookup db.boats c.id = some carrier →
        (∃ r ∈ carrier.loads, r.id = lid) →
        ∃ pre post, carrier.loads = pre ++ ⟨lid⟩ :: post ∧
          (∀ r ∈ pre, r.id ≠ lid) ∧
          deleteLoad db (some lid) =
            some (⟨204, none⟩,
              ⟨aupdate db.boats c.id { carrier with loads := pre ++ post },
                adelete db.loads lid⟩)) ∧
      (load.carrier = none →
        deleteLoad db (some lid) =
          some (⟨204, none⟩, ⟨db.boats, adelete db.loads lid⟩)) := by
  intro db lid load hl
  constructor
  · intro c carrier hc hcb hex
    obtain ⟨pre, post, heq, hpre, hrw⟩ := eraseRef_decomp hex
    refine ⟨pre, post, heq, hpre, ?_⟩
    simp only [deleteLoad, hl, hc, hcb]
    rw [spliceOne_findIndexJs hex, hrw]
  · intro hc
    simp only [deleteLoad, hl, hc]

/-- Witness for C5: deleting the assigned load 7 of `smallDB` removes the
single matching back-reference from boat 1. -/
theorem C5_deleteLoad_witness :
    ∃ pre post, ([⟨7⟩] : List LoadRef) = pre ++ ⟨(7 : Id)⟩ :: post ∧
      (∀ r ∈ pre, r.id ≠ 7) ∧
      deleteLoad smallDB (some 7) =
        some (⟨204, none⟩,
          ⟨aupdate smallDB.boats 1
            { name := "Orca", type := "sail", length := 12, owner := "u",
              loads := pre ++ post },
            adelete smallDB.loads 7⟩) :=
  (C5_deleteLoad smallDB 7 ⟨3, "beans", "d", some ⟨1, some "Orca"⟩⟩
    (by decide)).1 ⟨1, some "Orca"⟩ ⟨"Orca", "sail", 12, "u", [⟨7⟩]⟩ rfl
    (by decide) ⟨⟨7⟩, by decide, rfl⟩

/-! ### Request validation and PUT/PATCH (JavaScript value semantics) -/

/-- A fragment of JavaScript values as they appear in request bodies:
numbers (with NaN), strings, booleans, null, and Date objects (as produced
by `new Date(...)` on a stored value). -/
inductive JVal where
  | jnum (n : Int)
  | jnan
  | jstr (s : String)
  | jbool (b : Bool)
  | jnull
  | jdate (v : JVal)
deriving DecidableEq

/-- JavaScript truthiness: 0, NaN, the empty string, false and null are
falsy; objects such as dates are always truthy. -/
def JVal.truthy : JVal → Bool
  | .jnum n => n != 0
  | .jnan => false
  | .jstr s => s != ""
  | .jbool b => b
  | .jnull => false
  | .jdate _ => true

/-- Truthiness of a possibly-absent (undefined) body field. -/
def truthyOpt : Option JVal → Bool
  | none => false
  | some v => v.truthy

/-- The destructured boat request body `{name, type, length}`; `none`
models an absent (undefined) property. -/
structure BoatBody where
  name : Option JVal
  type : Option JVal
  length : Option JVal
deriving DecidableEq

/-- A stored Boat document at the attribute level, owner and loads
included (`owner` is absent in the unauthenticated router's documents). -/
structure BoatDoc where
  name : Option JVal
  type : Option JVal
  length : Option JVal
  owner : Option String
  loads : List LoadRef
deriving DecidableEq

/-- The destructured load request body `{volume, content, creation_date}`. -/
structure LoadBody where
  volume : Option JVal
  content : Option JVal
  creation_date : Option JVal
deriving DecidableEq

/-- A stored Load document at the attribute level. -/
structure LoadDoc where
  volume : Option JVal
  content : Option JVal
  creation_date : Option JVal
  carrier : Option Carrier
deriving DecidableEq

/-- `isBadRequest` for boats (boats.js lines 7-10): rejects when any of
name, type, length is falsy, not merely absent. -/
def isBadRequestBoat (b : BoatBody) : Bool :=
  !(truthyOpt b.name && truthyOpt b.type && truthyOpt b.length)

/-- `isBadRequest` for loads: rejects when any of volume, content,
creation_date is falsy. -/
def isBadRequestLoad (b : LoadBody) : Bool :=
  !(truthyOpt b.volume && truthyOpt b.content && truthyOpt b.creation_date)

/-- `POST /boats` (boats.js lines 63-87): validate, default `loads` to [],
insert at a fresh datastore key (201); the unauthenticated router stores no
owner. -/
def postBoat (store : List (Id × BoatDoc)) (newId : Id) (body : BoatBody) :
    HttpResp × List (Id × BoatDoc) :=
  if isBadRequestBoat body then (⟨400, some BAD_REQUEST⟩, store)
  else (⟨201, none⟩,
    store ++ [(newId, ⟨body.name, body.type, body.length, none, []⟩)])

/-- `new Date(v)`: always a Date object and therefore truthy, even when
the argument is absent or unparsable (an Invalid Date); the argument is
kept as a tag, with an absent argument tagged by null — the object's
internal time value is never inspected by these handlers. -/
def jsNewDate (v : Option JVal) : JVal :=
  JVal.jdate (v.getD JVal.jnull)

/-- `POST /loads` (loads router, part_005 lines 22-46): `getLoadProps`
already wraps `creation_date` in `new Date(...)` (lines 12-16), so
`isBadRequest` sees a Date object — always truthy — and its
`creation_date` conjunct can never fire; then carrier is set to null and
the document inserted at a fresh key (201). -/
def postLoad (store : List (Id × LoadDoc)) (newId : Id) (body : LoadBody) :
    HttpResp × List (Id × LoadDoc) :=
  let props : LoadBody :=
    ⟨body.volume, body.content, some (jsNewDate body.creation_date)⟩
  if isBadRequestLoad props then (⟨400, some BAD_REQUEST⟩, store)
  else (⟨201, none⟩,
    store ++ [(newId, ⟨props.volume, props.content, props.creation_date, none⟩)])

/-- `PUT /boats/:boat_id` in the authenticated router (users.js lines
382-423): validate, find, check ownership, then write
`{owner: stored.owner, loads: stored.loads, ...body}`. -/
def putBoatAuth (store : List (Id × BoatDoc)) (sub : String)
    (boatId : Option Id) (body : BoatBody) :
    HttpResp × List (Id × BoatDoc) :=
  if isBadRequestBoat body then (⟨400, some BAD_REQUEST⟩, store)
  else
    match boatId with
    | none => (⟨404, some BOAT_NOT_FOUND⟩, store)
    | some bid =>
      match alookup store bid with
      | none => (⟨404, some BOAT_NOT_FOUND⟩, store)
      | some stored =>
        if stored.owner ≠ some sub then (⟨403, some NOT_OWNER⟩, store)
        else
          (⟨200, none⟩, aupdate store bid
            ⟨body.name, body.type, body.length, stored.owner, stored.loads⟩)

/-- `PATCH /boats/:boat_id` in the authenticated router (users.js lines
426-471): no validation; undefined body properties are filled from the
stored document, then the same owner- and loads-preserving write runs. -/
def patchBoatAuth (store : List (Id × BoatDoc)) (sub : String)
    (boatId : Option Id) (body : BoatBody) :
    HttpResp × List (Id × BoatDoc) :=
  match boatId with
  | none => (⟨404, some BOAT_NOT_FOUND⟩, store)
  | some bid =>
    match alookup store bid with
    | none => (⟨404, some BOAT_NOT_FOUND⟩, store)
    | some stored =>
      if stored.owner ≠ some sub then (⟨403, some NOT_OWNER⟩, store)
      else
        (⟨200, none⟩, aupdate store bid
          ⟨body.name.or stored.name, body.type.or stored.type,
            body.length.or stored.length, stored.owner, stored.loads⟩)

/-- `PUT /loads/:load_id` in the authenticated loads router (part_004
lines 220-261): validate the raw body, find, then write
`{carrier: stored.carrier, ...body}` with the creation date converted to a
Date (the conversion happens after validation in this router). -/
def putLoadAuth (store : List (Id × LoadDoc)) (loadId : Option Id)
    (body : LoadBody) : HttpResp × List (Id × LoadDoc) :=
  if isBadRequestLoad body then (⟨400, some BAD_REQUEST⟩, store)
  else
    match loadId with
    | none => (⟨404, some LOAD_NOT_FOUND⟩, store)
    | some lid =>
      match alookup store lid with
      | none => (⟨404, some LOAD_NOT_FOUND⟩, store)
      | some stored =>
        (⟨200, none⟩, aupdate store lid
          ⟨body.volume, body.content, some (jsNewDate body.creation_date),
            stored.carrier⟩)

/-- `PATCH /loads/:load_id` in the authenticated loads router (part_004
lines 264-306): no validation; undefined body properties are filled from
the stored document (no Date conversion here), and the write preserves the
stored carrier via `{carrier: stored.carrier, ...body}`. -/
def patchLoadAuth (store : List (Id × LoadDoc)) (loadId : Option Id)
    (body : LoadBody) : HttpResp × List (Id × LoadDoc) :=
  match loadId with
  | none => (⟨404, some LOAD_NOT_FOUND⟩, store)
  | some lid =>
    match alookup store lid with
    | none => (⟨404, some LOAD_NOT_FOUND⟩, store)
    | some stored =>
      (⟨200, none⟩, aupdate store lid
        ⟨body.volume.or stored.volume, body.content.or stored.content,
          body.creation_date.or stored.creation_date, stored.carrier⟩)

/-- C6: successful PUT and PATCH on a boat leave the stored owner and
loads fields equal to their prior values while replacing (PUT) or merging
(PATCH) name, type and length; successful PUT and PATCH on a load leave
the stored carrier equal to its prior value while replacing (PUT, with the
creation date stored as a Date) or merging (PATCH) the attribute fields. -/
theorem C6_put_patch_frame :
    (∀ (store : List (Id × BoatDoc)) (sub : String) (bid : Id)
        (body : BoatBody) (stored : BoatDoc),
      alookup store bid = some stored →
      (putBoatAuth store sub (some bid) body).1.status = 200 →
      alookup (putBoatAuth store sub (some bid) body).2 bid =
        some ⟨body.name, body.type, body.length, stored.owner,
          stored.loads⟩) ∧
    (∀ (store : List (Id × BoatDoc)) (sub : String) (bid : Id)
        (body : BoatBody) (stored : BoatDoc),
      alookup store bid = some stored →
      (patchBoatAuth store sub (some bid) body).1.status = 200 →
      alookup (patchBoatAuth store sub (some bid) body).2 bid =
        some ⟨body.name.or stored.name, body.type.or stored.type,
          body.length.or stored.length, stored.owner, stored.loads⟩) ∧
    (∀ (store : List (Id × LoadDoc)) (lid : Id) (body : LoadBody)
        (stored : LoadDoc),
      alookup store lid = some stored →
      (putLoadAuth store (some lid) body).1.status = 200 →
      alookup (putLoadAuth store (some lid) body).2 lid =
        some ⟨body.volume, body.content, some (jsNewDate body.creation_date),
          stored.carrier⟩) ∧
    (∀ (store : List (Id × LoadDoc)) (lid : Id) (body : LoadBody)
        (stored : LoadDoc),
      alookup store lid = some stored →
      (patchLoadAuth store (some lid) body).1.status = 200 →
      alookup (patchLoadAuth store (some lid) body).2 lid =
        some ⟨body.volume.or stored.volume, body.content.or stored.content,
          body.creation_date.or stored.creation_date, stored.carrier⟩) := by
  refine ⟨?_, ?_, ?_, ?_⟩
  · intro store sub bid body stored hst h200
    cases hbad : isBadRequestBoat body with
    | true => rw [putBoatAuth, if_pos hbad] at h200; cases h200
    | false =>
      by_cases ho : stored.owner = some sub
      · have ho' : ¬ stored.owner ≠ some sub := fun h => h ho
        simp only [putBoatAuth, hbad, Bool.false_eq_true, if_false, hst,
          if_neg ho']
        rw [alookup_aupdate_self, hst]
        rfl
      · exfalso
        simp [putBoatAuth, hbad, hst, ho] at h200
  · intro store sub bid body stored hst h200
    by_cases ho : stored.owner = some sub
    · have ho' : ¬ stored.owner ≠ some sub := fun h => h ho
      simp only [patchBoatAuth, hst, if_neg ho']
      rw [alookup_aupdate_self, hst]
      rfl
    · exfalso
      simp [patchBoatAuth, hst, ho] at h200
  · intro store lid body stored hst h200
    cases hbad : isBadRequestLoad body with
    | true => rw [putLoadAuth, if_pos hbad] at h200; cases h200
    | false =>
      simp only [putLoadAuth, hbad, Bool.false_eq_true, if_false, hst]
      rw [alookup_aupdate_self, hst]
      rfl
  · intro store lid body stored hst h200
    simp only [patchLoadAuth, hst]
    rw [alookup_aupdate_self, hst]
    rfl

/-- A one-boat document store owned by "bob". -/
def bobStore : List (Id × BoatDoc) :=
  [(1, ⟨some (.jstr "Orca"), some (.jstr "sail"), some (.jnum 12),
    some "bob", [⟨7⟩]⟩)]

/-- Witness for C6: a full PUT by the owner replaces the attributes and
keeps owner "bob" and the loads entry for load 7. -/
theorem C6_put_patch_frame_witness :
    alookup (putBoatAuth bobStore "bob" (some 1)
        ⟨some (.jstr "Lark"), some (.jstr "row"), some (.jnum 3)⟩).2 1 =
      some ⟨some (.jstr "Lark"), some (.jstr "row"), some (.jnum 3),
        some "bob", [⟨7⟩]⟩ :=
  C6_put_patch_frame.1 bobStore "bob" 1
    ⟨some (.jstr "Lark"), some (.jstr "row"), some (.jnum 3)⟩
    ⟨some (.jstr "Orca"), some (.jstr "sail"), some (.jnum 12),
      some "bob", [⟨7⟩]⟩
    (by decide) (by decide)

/-- C10 counterexample: a POST /loads body with a present but falsy
creation_date (the empty string) and truthy volume and content is accepted
with 201 and creates an entity, because `getLoadProps` wraps the value in
`new Date(...)` — always a truthy object — before `isBadRequest` runs. -/
theorem C10_counterexample :
    truthyOpt (some (JVal.jstr "")) = false ∧
      postLoad [] 5 ⟨some (JVal.jnum 3), some (JVal.jstr "beans"),
          some (JVal.jstr "")⟩ ≠ (⟨400, some BAD_REQUEST⟩, []) ∧
      (postLoad [] 5 ⟨some (JVal.jnum 3), some (JVal.jstr "beans"),
          some (JVal.jstr "")⟩).1.status = 201 ∧
      (postLoad [] 5 ⟨some (JVal.jnum 3), some (JVal.jstr "beans"),
          some (JVal.jstr "")⟩).2 ≠ [] := by
  decide

/-- C10 (amended): create-entity validation tests truthiness, not
presence: a POST /boats body with name, type and length present but any of
them falsy is rejected with 400 and nothing is created, and likewise a
POST /loads body with a falsy volume or content; but in the cited loads
router the creation_date is wrapped in `new Date(...)` before the check,
so a falsy creation_date never triggers 400 — with truthy volume and
content the request is accepted (201). -/
theorem C10_truthy_validation :
    (∀ (store : List (Id × BoatDoc)) (newId : Id) (body : BoatBody),
      body.name ≠ none → body.type ≠ none → body.length ≠ none →
      (truthyOpt body.name = false ∨ truthyOpt body.type = false ∨
        truthyOpt body.length = false) →
      postBoat store newId body = (⟨400, some BAD_REQUEST⟩, store)) ∧
    (∀ (store : List (Id × LoadDoc)) (newId : Id) (body : LoadBody),
      body.volume ≠ none → body.content ≠ none →
      (truthyOpt body.volume = false ∨ truthyOpt body.content = false) →
      postLoad store newId body = (⟨400, some BAD_REQUEST⟩, store)) ∧
    (∀ (store : List (Id × LoadDoc)) (newId : Id) (body : LoadBody),
      truthyOpt body.volume = true → truthyOpt body.content = true →
      (postLoad store newId body).1.status = 201) := by
  refine ⟨?_, ?_, ?_⟩
  · intro store newId body _ _ _ hfalsy
    have hbad : isBadRequestBoat body = true := by
      rcases hfalsy with h | h | h <;> simp [isBadRequestBoat, h]
    rw [postBoat, if_pos hbad]
  · intro store newId body _ _ hfalsy
    have hbad : isBadRequestLoad
        ⟨body.volume, body.content, some (jsNewDate body.creation_date)⟩ =
        true := by
      rcases hfalsy with h | h <;> simp [isBadRequestLoad, h]
    simp only [postLoad]
    rw [if_pos hbad]
  · intro store newId body hv hc
    have htr : truthyOpt (some (jsNewDate body.creation_date)) = true := by
      simp [truthyOpt, jsNewDate, JVal.truthy]
    have hgood : isBadRequestLoad
        ⟨body.volume, body.content, some (jsNewDate body.creation_date)⟩ =
        false := by
      simp [isBadRequestLoad, hv, hc, htr]
    simp only [postLoad]
    rw [if_neg (by simp [hgood])]

/-- Witness for C10: POST /boats with length 0 present is rejected and
creates nothing; POST /loads with volume 0 likewise; POST /loads with
truthy volume and content is accepted regardless of its creation_date. -/
theorem C10_truthy_validation_witness :
    postBoat [] 5 ⟨some (.jstr "Orca"), some (.jstr "sail"),
        some (.jnum 0)⟩ = (⟨400, some BAD_REQUEST⟩, []) ∧
    postLoad [] 5 ⟨some (.jnum 0), some (.jstr "beans"),
        some (.jstr "2020-01-01")⟩ = (⟨400, some BAD_REQUEST⟩, []) ∧
    (postLoad [] 5 ⟨some (.jnum 3), some (.jstr "beans"),
        some (.jstr "2020-01-01")⟩).1.status = 201 :=
  ⟨C10_truthy_validation.1 [] 5 _ (by decide) (by decide) (by decide)
      (Or.inr (Or.inr (by decide))),
    C10_truthy_validation.2.1 [] 5 _ (by decide) (by decide)
      (Or.inl (by decide)),
    C10_truthy_validation.2.2 [] 5
      ⟨some (.jnum 3), some (.jstr "beans"), some (.jstr "2020-01-01")⟩
      (by decide) (by decide)⟩

/-! ### Representation builders -/

/-- An entry of a stored boat's `loads` array as the representation
builder sees it: the id, plus the `self` property the builder itself may
have attached on an earlier call (absent on freshly stored entries). -/
structure LoadRefR where
  id : Id
  self : Option String
deriving DecidableEq

/-- A stored Boat entity at the shape `boatRepr` consumes. -/
structure BoatEnt where
  name : String
  type : String
  length : Int
  loads : List LoadRefR
deriving DecidableEq

/-- The JSON representation `boatRepr` emits (boats.js lines 16-35): the
`loads` member is present only in the singleton view. -/
structure BoatJson where
  id : Id
  name : String
  type : String
  length : Int
  loads : Option (List LoadRefR)
  self : String
deriving DecidableEq

/-- `boatRepr(id, boat, baseUrl, singleton)` (boats.js lines 16-35).
In the singleton view the loop `for (let load of boat.loads) load.self = ...`
assigns a `self` property to each element of the input boat's own `loads`
array, so the (possibly modified) input entity is returned alongside the
representation. -/
def boatRepr (id : Id) (boat : BoatEnt) (baseUrl : String)
    (singleton : Bool) : BoatJson × BoatEnt :=
  if singleton then
    let withSelf := boat.loads.map
      (fun r => { r with self := some (baseUrl ++ "/loads/" ++ toString r.id) })
    (⟨id, boat.name, boat.type, boat.length, some withSelf,
      baseUrl ++ "/boats/" ++ toString id⟩,
     { boat with loads := withSelf })
  else
    (⟨id, boat.name, boat.type, boat.length, none,
      baseUrl ++ "/boats/" ++ toString id⟩, boat)

/-- The carrier sub-object of a load representation. -/
structure CarrierJson where
  id : Id
  name : Option String
  self : String
deriving DecidableEq

/-- The JSON representation `loadRepr` emits; the locale formatting of the
stored creation date is abstracted as the stored string itself. -/
structure LoadJson where
  id : Id
  volume : Int
  carrier : Option CarrierJson
  content : String
  creation_date : String
  self : String
deriving DecidableEq

/-- `loadRepr(id, load, baseUrl)` (utils): builds a fresh carrier object
(or null) and a `self` link; it writes nothing into the input load, which
is returned unchanged alongside the representation. -/
def loadRepr (id : Id) (load : Load) (baseUrl : String) : LoadJson × Load :=
  (⟨id, load.volume,
    load.carrier.map
      (fun c => ⟨c.id, c.name, baseUrl ++ "/boats/" ++ toString c.id⟩),
    load.content, load.creation_date, baseUrl ++ "/loads/" ++ toString id⟩,
   load)

/-- C8 counterexample: `boatRepr` in the singleton view mutates its input
entity — the loads entry of this concrete boat gains a `self` property, so
the returned entity differs from the input. -/
theorem C8_counterexample :
    (boatRepr 1 ⟨"Orca", "sail", 12, [⟨7, none⟩]⟩ "http://h" true).2 ≠
      ⟨"Orca", "sail", 12, [⟨7, none⟩]⟩ := by
  intro h
  have h2 := congrArg BoatEnt.loads h
  simp [boatRepr] at h2

/-- C8 (amended): the builders are pure, deterministic mappings with no
I/O; `loadRepr` never modifies its input, `boatRepr` in list views neither
modifies its input nor emits `loads`, while in the singleton view it emits
`loads` with per-load self links and its only effect on the input is to
attach exactly those self links (ids unchanged), so a repeated call yields
the same output and entity. -/
theorem C8_repr_builders :
    (∀ (id : Id) (load : Load) (baseUrl : String),
      (loadRepr id load baseUrl).2 = load) ∧
    (∀ (id : Id) (boat : BoatEnt) (baseUrl : String),
      (boatRepr id boat baseUrl false).2 = boat ∧
      (boatRepr id boat baseUrl false).1.loads = none) ∧
    (∀ (id : Id) (boat : BoatEnt) (baseUrl : String),
      (boatRepr id boat baseUrl true).1.loads =
        some (boatRepr id boat baseUrl true).2.loads ∧
      (boatRepr id boat baseUrl true).2.loads.map LoadRefR.id =
        boat.loads.map LoadRefR.id ∧
      (∀ r ∈ (boatRepr id boat baseUrl true).2.loads,
        r.self = some (baseUrl ++ "/loads/" ++ toString r.id)) ∧
      boatRepr id (boatRepr id boat baseUrl true).2 baseUrl true =
        boatRepr id boat baseUrl true) := by
  refine ⟨fun id load baseUrl => rfl,
    fun id boat baseUrl => ⟨rfl, rfl⟩,
    fun id boat baseUrl => ⟨rfl, ?_, ?_, ?_⟩⟩
  · show (boat.loads.map _).map LoadRefR.id = boat.loads.map LoadRefR.id
    rw [List.map_map]
    rfl
  · intro r hr
    have hr' : r ∈ boat.loads.map
        (fun r => ({ r with
          self := some (baseUrl ++ "/loads/" ++ toString r.id) } : LoadRefR)) :=
      hr
    obtain ⟨r₀, _, hre⟩ := List.mem_map.mp hr'
    rw [← hre]
  · show boatRepr id
        { boat with loads := (boat.loads.map (fun r =>
          { r with self := some (baseUrl ++ "/loads/" ++ toString r.id) })) }
        baseUrl true = _
    simp only [boatRepr, List.map_map]
    rfl

/-- Witness for C8's universal parts at a concrete boat and load (the
amended theorem has no hypotheses; this records a concrete evaluation). -/
theorem C8_repr_builders_witness :
    (loadRepr 7 ⟨3, "beans", "d", some ⟨1, some "Orca"⟩⟩ "http://h").2 =
      ⟨3, "beans", "d", some ⟨1, some "Orca"⟩⟩ :=
  C8_repr_builders.1 7 ⟨3, "beans", "d", some ⟨1, some "Orca"⟩⟩ "http://h"

end Portfolio
